import Mathlib

set_option linter.unusedVariables false
set_option linter.unnecessarySeqFocus false

/-! Verification development for the FortiManager API command-line client
(src/fmg_api_client.py): a shallow embedding of its table formatter
(TableFormatter), request dispatcher (FortiManagerAPIClient.execute_request)
and exit-code logic (main), with theorems checking the documented behaviour. -/

/-- JSON values as handled by the client: Python None, bool, int, str, list
and dict (an insertion-ordered association list, as Python dicts are).
Numbers are modelled as integers. -/
inductive JSON where
  | null : JSON
  | bool : Bool → JSON
  | int : Int → JSON
  | str : String → JSON
  | arr : List JSON → JSON
  | obj : List (String × JSON) → JSON

/-- A single-quote character as a string, used when modelling Python repr
output, so that no quote characters appear in source literals. -/
def squo : String := String.mk [Char.ofNat 39]

/-- Python truthiness of a JSON value (drives the or-chain at source
line 40 and the emptiness test at line 52). -/
def pyTruthy : JSON → Bool
  | .null => false
  | .bool b => b
  | .int n => n != 0
  | .str s => s != ""
  | .arr xs => !xs.isEmpty
  | .obj kvs => !kvs.isEmpty

/-- Python x or y: the left operand when truthy, otherwise the right. -/
def pyOr (x y : JSON) : JSON := if pyTruthy x then x else y

/-- First-match association-list lookup, modelling Python dict access. -/
def alook (k : String) : List (String × JSON) → Option JSON
  | [] => none
  | (k₀, v) :: rest => if k₀ = k then some v else alook k rest

/-- Python dict.get with default None (source line 40). -/
def objGet (kvs : List (String × JSON)) (k : String) : JSON :=
  (alook k kvs).getD .null

/-- Python key-membership test on a dict (the in operator). -/
def hasKey (kvs : List (String × JSON)) (k : String) : Bool :=
  (alook k kvs).isSome

/-- Models CPython repr of a str, for strings without quote, backslash or
control characters (the only strings the development evaluates): the text
wrapped in single quotes. -/
def pyReprStr (s : String) : String := squo ++ s ++ squo

/-- Comma-space join, as Python does with a join on a comma-space
separator (source lines 90 and 91). -/
def joinComma (l : List String) : String := String.intercalate ", " l

mutual

/-- Models CPython repr of a JSON value: used for elements nested inside
containers when the container itself is converted with str. -/
def pyRepr : JSON → String
  | .null => "None"
  | .bool true => "True"
  | .bool false => "False"
  | .int n => toString n
  | .str s => pyReprStr s
  | .arr xs => "[" ++ joinComma (pyReprList xs) ++ "]"
  | .obj kvs => "\x7b" ++ joinComma (pyReprPairs kvs) ++ "\x7d"

/-- repr of each element of a list. -/
def pyReprList : List JSON → List String
  | [] => []
  | v :: vs => pyRepr v :: pyReprList vs

/-- repr of each key-value entry of a dict. -/
def pyReprPairs : List (String × JSON) → List String
  | [] => []
  | (k, v) :: kvs => (pyReprStr k ++ ": " ++ pyRepr v) :: pyReprPairs kvs

end

/-- Models CPython str of a JSON value: a str converts to itself, every
other value to its repr. -/
def pyStr : JSON → String
  | .str s => s
  | v => pyRepr v

/-- Python type name text used by the unsupported-shape message of
format_table (source line 50). -/
def typeName : JSON → String
  | .null => "<class " ++ squo ++ "NoneType" ++ squo ++ ">"
  | .bool _ => "<class " ++ squo ++ "bool" ++ squo ++ ">"
  | .int _ => "<class " ++ squo ++ "int" ++ squo ++ ">"
  | .str _ => "<class " ++ squo ++ "str" ++ squo ++ ">"
  | .arr _ => "<class " ++ squo ++ "list" ++ squo ++ ">"
  | .obj _ => "<class " ++ squo ++ "dict" ++ squo ++ ">"

/-- The one Python runtime error the formatter can raise: calling the get
method on a value that is not a dict. -/
inductive PyErr where
  | attributeError : PyErr
deriving DecidableEq

/-- Left-to-right effectful map over a list in the Except monad: the first
raised error propagates, as in a Python loop or comprehension. -/
def mapME (f : α → Except PyErr β) : List α → Except PyErr (List β)
  | [] => .ok []
  | a :: as =>
    match f a with
    | .error e => .error e
    | .ok b =>
      match mapME f as with
      | .error e => .error e
      | .ok bs => .ok (b :: bs)

/-- item.get(k, dflt) as a Python method call: an AttributeError when the
receiver is not a dict (relevant at source lines 72 and 90). -/
def pyGetMethod (item : JSON) (k : String) (dflt : JSON) : Except PyErr JSON :=
  match item with
  | .obj kvs => .ok ((alook k kvs).getD dflt)
  | _ => .error .attributeError

/-- str(item.get(name-key, empty)) for one element of the name-join branch
(source line 90). -/
def nameStr (item : JSON) : Except PyErr String :=
  match pyGetMethod item "name" (.str "") with
  | .error e => .error e
  | .ok n => .ok (pyStr n)

/-- TableFormatter._flatten_value (source lines 82-100). The name-join
branch is entered when the first list element is a dict carrying a name
key; it then calls get on every element, which raises on non-dict
elements. -/
def _flatten_value : JSON → Except PyErr String
  | .null => .ok "-"
  | .arr [] => .ok "-"
  | .arr (v :: vs) =>
    match v with
    | .obj kvs =>
      if hasKey kvs "name" then
        match mapME nameStr (JSON.obj kvs :: vs) with
        | .error e => .error e
        | .ok names => .ok (joinComma names)
      else .ok (joinComma ((JSON.obj kvs :: vs).map pyStr))
    | _ => .ok (joinComma ((v :: vs).map pyStr))
  | .obj kvs =>
    if hasKey kvs "name" then .ok (pyStr (objGet kvs "name"))
    else if kvs.length = 1 then .ok (pyStr ((kvs.map Prod.snd).headD .null))
    else .ok (pyStr (.obj kvs))
  | v => .ok (pyStr v)

/-- Python list slicing l[:n] for an int bound n: a nonnegative bound keeps
the first n elements, a negative bound drops the last -n elements. -/
def pyTakeList (n : Int) (l : List α) : List α :=
  if 0 ≤ n then l.take n.toNat else l.take (l.length - (-n).toNat)

/-- Python string slicing s[:n] for an int bound n, same convention. -/
def pySliceStrTo (n : Int) (s : String) : String :=
  if 0 ≤ n then String.mk (s.data.take n.toNat)
  else String.mk (s.data.take (s.data.length - (-n).toNat))

/-- One step of the field-count accumulation (source line 60): increment
the count stored under a key, appending the key on first sight. -/
def bumpKey : List (String × Nat) → String → List (String × Nat)
  | [], k => [(k, 1)]
  | (k₀, c) :: rest, k =>
    if k₀ = k then (k₀, c + 1) :: rest else (k₀, c) :: bumpKey rest k

/-- Insertion step of a stable descending sort on counts: the new pair goes
after every pair with a strictly larger count and before equal ones. -/
def insertDesc (p : String × Nat) : List (String × Nat) → List (String × Nat)
  | [] => [p]
  | q :: rest => if p.2 < q.2 then q :: insertDesc p rest else p :: q :: rest

/-- Stable descending sort by count, modelling Python sorted with a count
key and reverse order (source line 61), which is stable. -/
def sortDesc : List (String × Nat) → List (String × Nat)
  | [] => []
  | p :: rest => insertDesc p (sortDesc rest)

/-- The or-chain over the results, data and items keys (source line 40). -/
def chainValue (kvs : List (String × JSON)) : JSON :=
  pyOr (objGet kvs "results") (pyOr (objGet kvs "data") (objGet kvs "items"))

/-- Row-list extraction of format_table (source lines 39-50). none models
the early return for a scalar response (unsupported shape message). -/
def extractRows : JSON → Option (List JSON)
  | .obj kvs =>
    match chainValue kvs with
    | .arr xs => some xs
    | .obj kvs₂ => some [.obj kvs₂]
    | _ => some [.obj kvs]
  | .arr xs => some xs
  | _ => none

/-- Keys of one sampled row: a dict row contributes its keys in order,
any other row contributes nothing (source lines 58-60). -/
def rowKeys : JSON → List String
  | .obj kvs => kvs.map Prod.fst
  | _ => []

/-- The field_counts accumulation over the first ten rows (source
lines 56-60). -/
def field_counts (data_list : List JSON) : List (String × Nat) :=
  (data_list.take 10).foldl (fun acc item => (rowKeys item).foldl bumpKey acc) []

/-- common_fields: the counted keys ranked by descending count, ties kept
in first-seen order (source line 61). -/
def common_fields (data_list : List JSON) : List (String × Nat) :=
  sortDesc (field_counts data_list)

/-- The selected column names: the max_fields slice of the ranked keys
(source line 62). -/
def tableFields (max_fields : Int) (data_list : List JSON) : List String :=
  (pyTakeList max_fields (common_fields data_list)).map Prod.fst

/-- Cell truncation (source lines 74-75): applied when max_width is truthy
(nonzero) and the cell is longer, slicing to max_width - 3 characters —
a Python negative slice when max_width is 1 or 2 — plus an ellipsis. -/
def truncate_cell (max_width : Int) (s : String) : String :=
  if max_width ≠ 0 ∧ max_width < (s.length : Int) then
    pySliceStrTo (max_width - 3) s ++ "..."
  else s

/-- One rendered cell (source lines 72-76): item.get(field, dash) — an
AttributeError on non-dict rows — then flattening, then truncation. -/
def render_cell (max_width : Int) (item : JSON) (field : String) : Except PyErr String :=
  match pyGetMethod item field (.str "-") with
  | .error e => .error e
  | .ok value =>
    match _flatten_value value with
    | .error e => .error e
    | .ok s => .ok (truncate_cell max_width s)

/-- One rendered row (source lines 70-77). -/
def render_row (max_width : Int) (fields : List String) (item : JSON) :
    Except PyErr (List String) :=
  mapME (render_cell max_width item) fields

/-- Stand-in for the external tabulate library call (source line 78): the
repository does not define its output, so any total rendering of headers
and rows works for the properties below. -/
def tabulateGrid (headers : List String) (rows : List (List String)) : String :=
  String.intercalate "\n"
    ((headers :: rows).map (fun r => "| " ++ String.intercalate " | " r ++ " |"))

/-- TableFormatter.format_table (source lines 36-80). The result is in the
Except monad because the row loop can raise an AttributeError. -/
def format_table (response_data : JSON) (max_fields : Int := 6) (max_width : Int := 50) :
    Except PyErr String :=
  match extractRows response_data with
  | none => .ok ("Table format not supported for response type: " ++ typeName response_data)
  | some data_list =>
    if data_list.isEmpty then .ok "No data to display in table format"
    else
      let fields := tableFields max_fields data_list
      if fields.isEmpty then .ok "No suitable fields found for table display"
      else
        match mapME (render_row max_width fields) data_list with
        | .error e => .error e
        | .ok rows =>
          .ok (toString data_list.length ++ " result(s) found\n" ++ tabulateGrid fields rows)

/-- Python str.lower (used on the verb at source line 131 and on the
status string at line 326), character by character. -/
def pyLower (s : String) : String := String.mk (s.data.map Char.toLower)

/-- Python s.startswith(pre) (source line 134). -/
def pyStartswith (s pre : String) : Bool :=
  decide (s.data.take pre.data.length = pre.data)

/-- Endpoint normalization (source lines 134-135): prefix one slash when
the endpoint does not already start with one. -/
def normalizeEndpoint (endpoint : String) : String :=
  if pyStartswith endpoint "/" then endpoint else "/" ++ endpoint

/-- Status codes as used by the client: pyfmg hands back either an int or
a str status (main inspects both, source lines 320-328). -/
abbrev StatusCode := Int ⊕ String

/-- The classified pair returned by execute_request. -/
abbrev ApiResult := StatusCode × JSON

/-- The pyFMG exception classes the dispatcher can catch (source
lines 152-163), plus a constructor for any non-pyFMG exception. The
constructor grouping mirrors the class hierarchy: the first two are
caught by the connection clause, validSession by the session clause,
the next three are FMGBaseException subclasses caught by the generic
clause, and nonFMG only by the bare Exception clause. -/
inductive FMGExc where
  | connectionError : String → FMGExc
  | connectTimeout : String → FMGExc
  | validSession : String → FMGExc
  | valueErr : String → FMGExc
  | respNotFormed : String → FMGExc
  | otherBase : String → FMGExc
  | nonFMG : String → FMGExc

/-- The failure payload built by each except clause: a dict with error
label and details text (source lines 154, 157, 160, 163). -/
def errObj (label msg : String) : JSON :=
  .obj [("error", .str label), ("details", .str msg)]

/-- The except-clause ladder of execute_request (source lines 152-163):
each exception maps to exactly one sentinel pair. -/
def classifyExc : FMGExc → ApiResult
  | .connectionError m => (.inl (-1), errObj "Connection failed" m)
  | .connectTimeout m => (.inl (-1), errObj "Connection failed" m)
  | .validSession m => (.inl (-2), errObj "Invalid session" m)
  | .valueErr m => (.inl (-3), errObj "API error" m)
  | .respNotFormed m => (.inl (-3), errObj "API error" m)
  | .otherBase m => (.inl (-3), errObj "API error" m)
  | .nonFMG m => (.inl (-4), errObj "Unexpected error" m)

/-- The pyfmg wire method ultimately invoked on the connection: set and
update both dispatch to the update method (source lines 140-149). -/
inductive WireVerb where
  | get : WireVerb
  | add : WireVerb
  | update : WireVerb
  | delete : WireVerb
  | execute : WireVerb

/-- One call issued on an open connection: the wire verb, the normalized
endpoint, the positional query parameters and the keyword body. -/
structure WireCall where
  verb : WireVerb
  endpoint : String
  args : List String
  kwargs : List (String × JSON)

/-- What execute_request hands back to its caller: either the returned
(status, payload) pair, or a raised ValueError (source line 133). -/
inductive ReqResult where
  | ok : ApiResult → ReqResult
  | valueError : String → ReqResult

/-- The supported verb list of source line 132. -/
def supportedMethods : List String := ["get", "add", "set", "update", "delete", "exec"]

/-- FortiManagerAPIClient.execute_request (source lines 129-163). The
transport argument models the with-block of lines 137-149: connection
creation, login and the one wire call, either answering with a
(status, payload) pair or raising a pyFMG-level exception, which the
except ladder classifies. The second component of the result is the
trace of transport uses: empty exactly when no connection was opened.
The final -5 branch mirrors the unreachable else of lines 150-151. -/
def execute_request (transport : WireCall → Except FMGExc ApiResult)
    (method : String) (endpoint : String)
    (data : Option (List (String × JSON))) (query_params : Option (List String)) :
    ReqResult × List WireCall :=
  let m := pyLower method
  if m ∈ supportedMethods then
    let ep := normalizeEndpoint endpoint
    let args := query_params.getD []
    let kwargs := data.getD []
    let run := fun (call : WireCall) =>
      ((match transport call with
        | .ok r => ReqResult.ok r
        | .error e => ReqResult.ok (classifyExc e)), [call])
    if m = "get" then run ⟨.get, ep, args, []⟩
    else if m = "add" then run ⟨.add, ep, args, kwargs⟩
    else if m = "set" ∨ m = "update" then run ⟨.update, ep, args, kwargs⟩
    else if m = "delete" then run ⟨.delete, ep, args, []⟩
    else if m = "exec" then run ⟨.execute, ep, args, kwargs⟩
    else (ReqResult.ok (.inl (-5), errObj "Unsupported method" ("Method " ++ m ++ " not supported")), [])
  else (.valueError ("Unsupported HTTP method: " ++ m), [])

/-- The exit paths of main: each constructor is one way the process run
can end (source lines 256-334). completed carries the status code of a
finished request. -/
inductive MainOutcome where
  | configLoadError : MainOutcome
  | missingHost : MainOutcome
  | missingSecret : MainOutcome
  | badDataJson : MainOutcome
  | valueErrorRaised : MainOutcome
  | interrupted : MainOutcome
  | completed : StatusCode → MainOutcome

/-- The status-to-exit mapping at the end of main (source lines 320-328):
negative ints exit 1, ints at least 400 exit 2, other ints fall through to
exit 0; a str status exits 1 unless it lowers to success or ok. -/
def statusExitCode : StatusCode → Nat
  | .inl n => if n < 0 then 1 else if 400 ≤ n then 2 else 0
  | .inr t => if pyLower t = "success" ∨ pyLower t = "ok" then 0 else 1

/-- The process exit code for each exit path of main: config and
validation failures exit 1 (source lines 263, 274, 277, 284, 331), a user
interrupt exits 130 (line 334), and a completed request exits by its
status (lines 320-328). -/
def mainExitCode : MainOutcome → Nat
  | .configLoadError => 1
  | .missingHost => 1
  | .missingSecret => 1
  | .badDataJson => 1
  | .valueErrorRaised => 1
  | .interrupted => 130
  | .completed s => statusExitCode s

/-- The table-options plumbing of main (source line 307): a zero
table-max-fields flag is replaced by 999 before format_table is called. -/
def cliMaxFields (n : Int) : Int := if n ≠ 0 then n else 999

/-- A transport that always answers with status 0, used to exercise the
dispatcher on concrete inputs. -/
def okTransport : WireCall → Except FMGExc ApiResult := fun _ => .ok (.inl 0, .null)

/-- A transport whose remote answers with the FortiManager-native error
status -11, used to exercise status pass-through. -/
def negTransport : WireCall → Except FMGExc ApiResult := fun _ => .ok (.inl (-11), .null)

/-- Count stored under a key in a count list (0 when absent). -/
def cnt (k : String) : List (String × Nat) → Nat
  | [] => 0
  | (k₀, c) :: rest => if k₀ = k then c else cnt k rest

/-- Append a key on first sight, keep the list unchanged otherwise. -/
def insKey (fs : List String) (k : String) : List String :=
  if k ∈ fs then fs else fs ++ [k]

/-- The sampled keys, flattened: every key of every dict row among the
first ten rows, in encounter order. -/
def sampleKeys (data_list : List JSON) : List String :=
  (data_list.take 10).flatMap rowKeys

/-- Keys in first-seen order, the tie-break order the spec fixes for the
column ranking. -/
def specFirstSeen (ks : List String) : List String := ks.foldl insKey []

/-- The column inference restated from the spec text: each first-seen key
paired with its number of occurrences across the sample. -/
def specColumnPairs (data_list : List JSON) : List (String × Nat) :=
  (specFirstSeen (sampleKeys data_list)).map
    (fun k => (k, (sampleKeys data_list).count k))

/-- Whether a JSON value is a dict. -/
def isObjB : JSON → Bool
  | .obj _ => true
  | _ => false

/-- Whether a computation in the Except monad finished without raising. -/
def exceptOk : Except PyErr α → Bool
  | .ok _ => true
  | .error _ => false

/-- The text contributed by one element of the name-join branch of
_flatten_value: the string form of its name entry, defaulting to the
empty string (source line 90). Only dict elements reach this. -/
def objNameText : JSON → String
  | .obj kvs => pyStr ((alook "name" kvs).getD (.str ""))
  | _ => "-"

/-- The one value shape on which _flatten_value raises: a list whose
first element is a dict carrying a name key while a later element is not
a dict (the get call at source line 90 then raises AttributeError). -/
def badNameShape : JSON → Bool
  | .arr (.obj kvs :: vs) => hasKey kvs "name" && vs.any (fun x => !isObjB x)
  | _ => false

/-- The value a dict row supplies for a column: item.get(field, dash)
(source line 72). -/
def cellValue (kvs : List (String × JSON)) (k : String) : JSON :=
  (alook k kvs).getD (.str "-")

/-- Decidable equality of formatter results, so that concrete outputs can
be compared by evaluation. -/
instance : DecidableEq (Except PyErr String) := fun a b =>
  match a, b with
  | .ok x, .ok y =>
    decidable_of_iff (x = y) ⟨fun h => by rw [h], fun h => by injection h⟩
  | .error x, .error y =>
    decidable_of_iff (x = y) ⟨fun h => by rw [h], fun h => by injection h⟩
  | .ok _, .error _ => isFalse (fun he => Except.noConfusion he)
  | .error _, .ok _ => isFalse (fun he => Except.noConfusion he)

theorem bumpKey_fst (acc : List (String × Nat)) (k : String) :
    (bumpKey acc k).map Prod.fst = insKey (acc.map Prod.fst) k := by
  induction acc with
  | nil => simp [bumpKey, insKey]
  | cons p rest ih =>
    obtain ⟨k₀, c⟩ := p
    by_cases hk : k₀ = k
    · subst hk
      simp [bumpKey, insKey]
    · simp only [bumpKey, if_neg hk, List.map_cons, ih, insKey]
      by_cases hm : k ∈ rest.map Prod.fst
      · simp [hm, Ne.symm hk]
      · simp [hm, Ne.symm hk]

theorem cnt_bumpKey (acc : List (String × Nat)) (k k' : String) :
    cnt k' (bumpKey acc k) = cnt k' acc + (if k = k' then 1 else 0) := by
  induction acc with
  | nil =>
    by_cases h : k = k' <;> simp [bumpKey, cnt, h]
  | cons p rest ih =>
    obtain ⟨k₀, c⟩ := p
    by_cases hk : k₀ = k
    · subst hk
      by_cases h' : k₀ = k'
      · subst h'
        simp [bumpKey, cnt]
      · simp [bumpKey, cnt, h']
    · simp only [bumpKey, if_neg hk, cnt]
      by_cases h' : k₀ = k'
      · have : ¬k = k' := fun he => hk (he ▸ h')
        simp [h', this]
      · simp [h', ih]

theorem foldl_bumpKey_cnt (ks : List String) (k' : String) :
    ∀ acc, cnt k' (ks.foldl bumpKey acc) = cnt k' acc + ks.count k' := by
  induction ks with
  | nil => intro acc; simp
  | cons k rest ih =>
    intro acc
    simp only [List.foldl_cons, ih, cnt_bumpKey, List.count_cons]
    by_cases h : k = k' <;> simp [h] <;> omega

theorem foldl_bumpKey_fst (ks : List String) :
    ∀ acc, (ks.foldl bumpKey acc).map Prod.fst = ks.foldl insKey (acc.map Prod.fst) := by
  induction ks with
  | nil => intro acc; simp
  | cons k rest ih => intro acc; simp [List.foldl_cons, ih, bumpKey_fst]

theorem mem_insKey (fs : List String) (k k' : String) :
    k' ∈ insKey fs k ↔ k' ∈ fs ∨ k' = k := by
  by_cases h : k ∈ fs
  · simp only [insKey, if_pos h]
    exact ⟨Or.inl, fun hh => hh.elim id (fun he => he ▸ h)⟩
  · simp [insKey, if_neg h]

theorem nodup_insKey (fs : List String) (k : String) (h : fs.Nodup) :
    (insKey fs k).Nodup := by
  by_cases hm : k ∈ fs
  · simpa [insKey, hm] using h
  · simp only [insKey, if_neg hm]
    rw [← List.concat_eq_append]
    exact h.concat hm

theorem foldl_insKey_nodup (ks : List String) :
    ∀ fs, fs.Nodup → (ks.foldl insKey fs).Nodup := by
  induction ks with
  | nil => intro fs h; simpa using h
  | cons k rest ih => intro fs h; exact ih _ (nodup_insKey fs k h)

theorem mem_foldl_insKey (ks : List String) (k' : String) :
    ∀ fs, k' ∈ ks.foldl insKey fs ↔ k' ∈ fs ∨ k' ∈ ks := by
  induction ks with
  | nil => intro fs; simp
  | cons k rest ih =>
    intro fs
    simp only [List.foldl_cons, ih, mem_insKey, List.mem_cons]
    tauto

theorem specFirstSeen_nodup (ks : List String) : (specFirstSeen ks).Nodup :=
  foldl_insKey_nodup ks [] List.nodup_nil

theorem mem_specFirstSeen (ks : List String) (k' : String) :
    k' ∈ specFirstSeen ks ↔ k' ∈ ks := by
  simp [specFirstSeen, mem_foldl_insKey]

theorem cnt_map_pairs (l : List String) (f : String → Nat) (k : String) :
    cnt k (l.map fun x => (x, f x)) = if k ∈ l then f k else 0 := by
  induction l with
  | nil => simp [cnt]
  | cons a rest ih =>
    by_cases h : a = k
    · subst h; simp [cnt, ih]
    · simp only [List.map_cons, cnt, if_neg h, ih, List.mem_cons]
      have : ¬k = a := fun he => h he.symm
      simp [this]

theorem cnt_eq_zero_of_not_mem (l : List (String × Nat)) (k : String)
    (h : k ∉ l.map Prod.fst) : cnt k l = 0 := by
  induction l with
  | nil => simp [cnt]
  | cons p rest ih =>
    obtain ⟨k₀, c⟩ := p
    simp only [List.map_cons, List.mem_cons] at h
    push_neg at h
    simp only [cnt]
    rw [if_neg (fun he => h.1 he.symm), ih h.2]

theorem count_list_ext (l₁ : List (String × Nat)) :
    ∀ l₂ : List (String × Nat), l₁.map Prod.fst = l₂.map Prod.fst →
      (l₁.map Prod.fst).Nodup → (∀ k, cnt k l₁ = cnt k l₂) → l₁ = l₂ := by
  induction l₁ with
  | nil =>
    intro l₂ hf _ _
    cases l₂ with
    | nil => rfl
    | cons q rest₂ => simp at hf
  | cons p rest ih =>
    intro l₂ hf hn hc
    obtain ⟨k, c⟩ := p
    cases l₂ with
    | nil => simp at hf
    | cons q rest₂ =>
      obtain ⟨k₂, c₂⟩ := q
      simp only [List.map_cons, List.cons.injEq] at hf
      obtain ⟨hk, hrest⟩ := hf
      subst hk
      have hcc := hc k
      simp [cnt] at hcc
      subst hcc
      simp only [List.map_cons, List.nodup_cons] at hn
      have htail : rest = rest₂ := by
        refine ih rest₂ hrest hn.2 ?_
        intro k'
        by_cases hkk : k = k'
        · subst hkk
          rw [cnt_eq_zero_of_not_mem rest k hn.1,
            cnt_eq_zero_of_not_mem rest₂ k (hrest ▸ hn.1)]
        · have := hc k'
          simpa [cnt, hkk] using this
      rw [htail]

theorem foldl_rows_bumpKey (rows : List JSON) :
    ∀ acc, rows.foldl (fun a item => (rowKeys item).foldl bumpKey a) acc =
      (rows.flatMap rowKeys).foldl bumpKey acc := by
  induction rows with
  | nil => intro acc; simp
  | cons r rest ih => intro acc; simp [List.foldl_append, ih]

theorem field_counts_flat (dl : List JSON) :
    field_counts dl = (sampleKeys dl).foldl bumpKey [] := by
  simp [field_counts, sampleKeys, foldl_rows_bumpKey]

/-- The field-count accumulation of format_table computes exactly the
spec-side column pairs: every sampled key in first-seen order, paired with
its occurrence count over the first ten rows. -/
theorem field_counts_eq_spec (dl : List JSON) :
    field_counts dl = specColumnPairs dl := by
  rw [field_counts_flat]
  apply count_list_ext
  · rw [foldl_bumpKey_fst]
    simp only [specColumnPairs, List.map_map]
    have : (Prod.fst ∘ fun k => (k, (sampleKeys dl).count k)) = id := rfl
    rw [this, List.map_id, specFirstSeen]
    rfl
  · rw [foldl_bumpKey_fst]
    exact specFirstSeen_nodup (sampleKeys dl)
  · intro k
    rw [foldl_bumpKey_cnt]
    simp only [specColumnPairs, cnt_map_pairs, cnt, mem_specFirstSeen]
    by_cases hm : k ∈ sampleKeys dl
    · simp [hm]
    · simp [hm, List.count_eq_zero_of_not_mem hm]

theorem insertDesc_perm (p : String × Nat) (l : List (String × Nat)) :
    List.Perm (insertDesc p l) (p :: l) := by
  induction l with
  | nil => simp [insertDesc]
  | cons q rest ih =>
    by_cases h : p.2 < q.2
    · simp only [insertDesc, if_pos h]
      exact (ih.cons q).trans (List.Perm.swap p q rest)
    · simp [insertDesc, if_neg h]

theorem sortDesc_perm (l : List (String × Nat)) : List.Perm (sortDesc l) l := by
  induction l with
  | nil => simp [sortDesc]
  | cons p rest ih => exact (insertDesc_perm p (sortDesc rest)).trans (ih.cons p)

theorem insertDesc_head (p : String × Nat) (l : List (String × Nat)) :
    (insertDesc p l).head? = some p ∨ (insertDesc p l).head? = l.head? := by
  cases l with
  | nil => simp [insertDesc]
  | cons q rest =>
    by_cases h : p.2 < q.2
    · simp [insertDesc, h]
    · simp [insertDesc, h]

theorem insertDesc_chain (p : String × Nat) (l : List (String × Nat))
    (h : List.Chain' (fun a b : String × Nat => b.2 ≤ a.2) l) :
    List.Chain' (fun a b : String × Nat => b.2 ≤ a.2) (insertDesc p l) := by
  induction l with
  | nil => simp [insertDesc]
  | cons q rest ih =>
    obtain ⟨hq, hrest⟩ := List.chain'_cons'.mp h
    by_cases hlt : p.2 < q.2
    · simp only [insertDesc, if_pos hlt]
      refine List.chain'_cons'.mpr ⟨?_, ih hrest⟩
      intro y hy
      rcases insertDesc_head p rest with h1 | h1
      · rw [h1] at hy
        cases hy
        exact le_of_lt hlt
      · rw [h1] at hy
        exact hq y hy
    · simp only [insertDesc, if_neg hlt]
      refine List.chain'_cons'.mpr ⟨?_, List.chain'_cons'.mpr ⟨hq, hrest⟩⟩
      intro y hy
      cases hy
      omega

/-- The ranked column list is ordered by weakly decreasing count. -/
theorem sortDesc_chain (l : List (String × Nat)) :
    List.Chain' (fun a b : String × Nat => b.2 ≤ a.2) (sortDesc l) := by
  induction l with
  | nil => simp [sortDesc]
  | cons p rest ih => exact insertDesc_chain p (sortDesc rest) ih

theorem insertDesc_filter (p : String × Nat) (l : List (String × Nat)) (c : Nat) :
    (insertDesc p l).filter (fun q => decide (q.2 = c)) =
      if p.2 = c then p :: l.filter (fun q => decide (q.2 = c))
      else l.filter (fun q => decide (q.2 = c)) := by
  induction l with
  | nil => by_cases h : p.2 = c <;> simp [insertDesc, h]
  | cons q rest ih =>
    by_cases hlt : p.2 < q.2
    · simp only [insertDesc, if_pos hlt, List.filter_cons]
      by_cases hp : p.2 = c
      · have hq : ¬q.2 = c := by omega
        simp [hp, hq, ih]
      · by_cases hq : q.2 = c <;> simp [hp, hq, ih]
    · simp only [insertDesc, if_neg hlt, List.filter_cons]
      by_cases hp : p.2 = c <;> simp [hp]

/-- Stability of the ranking: among keys with one same count, the ranked
order is exactly the accumulation (first-seen) order. -/
theorem sortDesc_filter (l : List (String × Nat)) (c : Nat) :
    (sortDesc l).filter (fun q => decide (q.2 = c)) =
      l.filter (fun q => decide (q.2 = c)) := by
  induction l with
  | nil => simp [sortDesc]
  | cons p rest ih =>
    simp only [sortDesc, insertDesc_filter, ih, List.filter_cons]
    by_cases hp : p.2 = c <;> simp [hp]

theorem exceptOk_iff (x : Except PyErr α) : exceptOk x = true ↔ ∃ y, x = .ok y := by
  cases x <;> simp [exceptOk]

theorem mapME_ok_of (f : α → Except PyErr β) (l : List α)
    (h : ∀ a ∈ l, exceptOk (f a) = true) : exceptOk (mapME f l) = true := by
  induction l with
  | nil => simp [mapME, exceptOk]
  | cons a rest ih =>
    obtain ⟨b, hb⟩ := (exceptOk_iff (f a)).mp (h a (List.mem_cons_self a rest))
    have hrest := ih (fun x hx => h x (List.mem_cons_of_mem a hx))
    obtain ⟨bs, hbs⟩ := (exceptOk_iff (mapME f rest)).mp hrest
    simp [mapME, hb, hbs, exceptOk]

theorem mapME_map_of_all_ok (f : α → Except PyErr β) (g : α → β) (l : List α)
    (h : ∀ a ∈ l, f a = .ok (g a)) : mapME f l = .ok (l.map g) := by
  induction l with
  | nil => simp [mapME]
  | cons a rest ih =>
    have hrest := ih (fun x hx => h x (List.mem_cons_of_mem a hx))
    simp [mapME, h a (List.mem_cons_self a rest), hrest]

theorem isObjB_iff (v : JSON) : isObjB v = true ↔ ∃ kvs, v = .obj kvs := by
  cases v <;> simp [isObjB]

theorem nameStr_obj (kvs : List (String × JSON)) :
    nameStr (.obj kvs) = .ok (objNameText (.obj kvs)) := rfl

theorem nameStr_nonobj (v : JSON) (h : isObjB v = false) :
    nameStr v = .error .attributeError := by
  cases v <;> simp_all [nameStr, pyGetMethod, isObjB]

theorem mapME_nameStr_err (l : List JSON) (h : ∃ x ∈ l, isObjB x = false) :
    mapME nameStr l = .error .attributeError := by
  induction l with
  | nil => simp at h
  | cons a rest ih =>
    by_cases ha : isObjB a = false
    · simp [mapME, nameStr_nonobj a ha]
    · have ha' : isObjB a = true := by
        cases hv : isObjB a
        · exact absurd hv ha
        · rfl
      obtain ⟨kvs, rfl⟩ := (isObjB_iff a).mp ha'
      have hrest : ∃ x ∈ rest, isObjB x = false := by
        obtain ⟨x, hx, hxf⟩ := h
        rcases List.mem_cons.mp hx with rfl | hx'
        · exact absurd hxf ha
        · exact ⟨x, hx', hxf⟩
      simp [mapME, nameStr_obj, ih hrest]

theorem mapME_nameStr_ok (l : List JSON) (h : ∀ x ∈ l, isObjB x = true) :
    mapME nameStr l = .ok (l.map objNameText) := by
  apply mapME_map_of_all_ok
  intro a ha
  obtain ⟨kvs, rfl⟩ := (isObjB_iff a).mp (h a ha)
  exact nameStr_obj kvs

/-- Characterization of when _flatten_value raises: exactly on the bad
name-join shape, and on nothing else. -/
theorem flatten_ok_char (v : JSON) : exceptOk (_flatten_value v) = !badNameShape v := by
  cases v with
  | null => rfl
  | bool b => cases b <;> rfl
  | int n => rfl
  | str s => rfl
  | obj kvs =>
    by_cases h1 : hasKey kvs "name" <;> by_cases h2 : kvs.length = 1 <;>
      simp [_flatten_value, h1, h2, exceptOk, badNameShape]
  | arr xs =>
    cases xs with
    | nil => rfl
    | cons v₀ vs =>
      cases v₀ with
      | obj kvs =>
        by_cases hname : hasKey kvs "name"
        · by_cases hbad : ∃ x ∈ vs, isObjB x = false
          · have herr := mapME_nameStr_err (JSON.obj kvs :: vs)
              ⟨hbad.choose, List.mem_cons_of_mem _ hbad.choose_spec.1, hbad.choose_spec.2⟩
            simp only [_flatten_value, if_pos hname, herr]
            have hany : vs.any (fun x => !isObjB x) = true := by
              obtain ⟨x, hx, hxf⟩ := hbad
              exact List.any_eq_true.mpr ⟨x, hx, by simp [hxf]⟩
            simp [exceptOk, badNameShape, hname, hany]
          · have hall : ∀ x ∈ JSON.obj kvs :: vs, isObjB x = true := by
              intro x hx
              rcases List.mem_cons.mp hx with rfl | hx'
              · rfl
              · cases hvx : isObjB x
                · exact absurd ⟨x, hx', hvx⟩ hbad
                · rfl
            have hok := mapME_nameStr_ok (JSON.obj kvs :: vs) hall
            simp only [_flatten_value, if_pos hname, hok]
            have hany : vs.any (fun x => !isObjB x) = false := by
              rw [← Bool.not_eq_true, List.any_eq_true]
              rintro ⟨x, hx, hxf⟩
              exact hbad ⟨x, hx, by simpa using hxf⟩
            simp [exceptOk, badNameShape, hname, hany]
        · simp [_flatten_value, hname, exceptOk, badNameShape]
      | null => rfl
      | bool b => cases b <;> rfl
      | int n => rfl
      | str s => rfl
      | arr ys => rfl

theorem render_cell_obj (mw : Int) (kvs : List (String × JSON)) (k : String)
    (h : badNameShape (cellValue kvs k) = false) :
    render_cell mw (.obj kvs) k =
      .ok (truncate_cell mw ((_flatten_value (cellValue kvs k)).toOption.getD "-")) := by
  have hok : exceptOk (_flatten_value (cellValue kvs k)) = true := by
    rw [flatten_ok_char, h]
    rfl
  obtain ⟨s, hs⟩ := (exceptOk_iff _).mp hok
  simp only [cellValue] at hs
  simp [render_cell, pyGetMethod, cellValue, hs, Except.toOption]

theorem render_row_ok (mw : Int) (fields : List String) (kvs : List (String × JSON))
    (h : ∀ k ∈ fields, badNameShape (cellValue kvs k) = false) :
    exceptOk (render_row mw fields (.obj kvs)) = true := by
  apply mapME_ok_of
  intro k hk
  rw [render_cell_obj mw kvs k (h k hk)]
  rfl

theorem strLen_data (s : String) : s.length = s.data.length := rfl

theorem strMk_length (l : List Char) : (String.mk l).length = l.length := rfl

theorem truncate_cell_zero (s : String) : truncate_cell 0 s = s := by
  simp [truncate_cell]

theorem truncate_cell_short (mw : Int) (s : String) (h : (s.length : Int) ≤ mw) :
    truncate_cell mw s = s := by
  simp only [truncate_cell]
  rw [if_neg]
  rintro ⟨h1, h2⟩
  omega

theorem truncate_cell_long (mw : Int) (s : String) (h3 : 3 ≤ mw)
    (hl : mw < (s.length : Int)) :
    truncate_cell mw s = String.mk (s.data.take (mw.toNat - 3)) ++ "..." ∧
      (truncate_cell mw s).length = mw.toNat := by
  have hmw0 : mw ≠ 0 := by omega
  have heq : truncate_cell mw s = pySliceStrTo (mw - 3) s ++ "..." := by
    simp [truncate_cell, hmw0, hl]
  have hnn : (0 : Int) ≤ mw - 3 := by omega
  have htn : (mw - 3).toNat = mw.toNat - 3 := by omega
  have hslice : pySliceStrTo (mw - 3) s = String.mk (s.data.take (mw.toNat - 3)) := by
    simp [pySliceStrTo, hnn, htn]
  refine ⟨by rw [heq, hslice], ?_⟩
  rw [heq, hslice, String.length_append, strMk_length, List.length_take]
  have hsd : s.data.length = s.length := (strLen_data s).symm
  have hd3 : ("..." : String).length = 3 := rfl
  rw [hd3]
  omega

theorem truncate_cell_tiny (mw : Int) (s : String) (h1 : mw = 1 ∨ mw = 2)
    (hl : mw < (s.length : Int)) :
    truncate_cell mw s = String.mk (s.data.take (s.length - (3 - mw).toNat)) ++ "..." := by
  have hmw0 : mw ≠ 0 := by omega
  have heq : truncate_cell mw s = pySliceStrTo (mw - 3) s ++ "..." := by
    simp [truncate_cell, hmw0, hl]
  have hneg : ¬ (0 : Int) ≤ mw - 3 := by omega
  have ht : (-(mw - 3)).toNat = (3 - mw).toNat := by omega
  rw [heq]
  simp only [pySliceStrTo, if_neg hneg, ht, ← strLen_data]

theorem startswith_slash_append (s : String) : pyStartswith ("/" ++ s) "/" = true := by
  have h : ("/" ++ s).data = (Char.ofNat 47) :: s.data := by
    simp [String.data_append]
  simp [pyStartswith, h]

theorem normalizeEndpoint_starts (ep : String) :
    pyStartswith (normalizeEndpoint ep) "/" = true := by
  by_cases h : pyStartswith ep "/"
  · simp [normalizeEndpoint, h]
  · simp only [normalizeEndpoint, if_neg h]
    exact startswith_slash_append ep

theorem normalizeEndpoint_idem (ep : String) :
    normalizeEndpoint (normalizeEndpoint ep) = normalizeEndpoint ep := by
  have h := normalizeEndpoint_starts ep
  conv_lhs => rw [normalizeEndpoint]
  rw [if_pos h]

theorem execute_request_call (t : WireCall → Except FMGExc ApiResult) (m ep : String)
    (d : Option (List (String × JSON))) (q : Option (List String))
    (h : pyLower m ∈ supportedMethods) :
    ∃ call : WireCall, call.endpoint = normalizeEndpoint ep ∧ call.args = q.getD [] ∧
      execute_request t m ep d q =
        ((match t call with
          | .ok r => ReqResult.ok r
          | .error e => ReqResult.ok (classifyExc e)), [call]) := by
  simp only [supportedMethods, List.mem_cons, List.not_mem_nil, or_false] at h
  rcases h with hm | hm | hm | hm | hm | hm
  · exact ⟨⟨.get, normalizeEndpoint ep, q.getD [], []⟩, rfl, rfl, by
      simp [execute_request, hm, supportedMethods]⟩
  · exact ⟨⟨.add, normalizeEndpoint ep, q.getD [], d.getD []⟩, rfl, rfl, by
      simp [execute_request, hm, supportedMethods]⟩
  · exact ⟨⟨.update, normalizeEndpoint ep, q.getD [], d.getD []⟩, rfl, rfl, by
      simp [execute_request, hm, supportedMethods]⟩
  · exact ⟨⟨.update, normalizeEndpoint ep, q.getD [], d.getD []⟩, rfl, rfl, by
      simp [execute_request, hm, supportedMethods]⟩
  · exact ⟨⟨.delete, normalizeEndpoint ep, q.getD [], []⟩, rfl, rfl, by
      simp [execute_request, hm, supportedMethods]⟩
  · exact ⟨⟨.execute, normalizeEndpoint ep, q.getD [], d.getD []⟩, rfl, rfl, by
      simp [execute_request, hm, supportedMethods]⟩

/-- C1, counterexample: for the unsupported verb foo, execute_request does
not produce the classified pair (-5, Unsupported method) the claim states;
it raises ValueError — and opens no connection (empty transport trace). -/
theorem execute_request_unsupported_cex :
    execute_request okTransport "foo" "x" none none =
      (.valueError "Unsupported HTTP method: foo", []) ∧
    (execute_request okTransport "foo" "x" none none).1 ≠
      ReqResult.ok (.inl (-5), errObj "Unsupported method" "Method foo not supported") := by
  refine ⟨rfl, ?_⟩
  intro h
  exact ReqResult.noConfusion h

/-- C1 (amended): every verb whose lowercase form is outside the supported
six makes execute_request raise ValueError (Unsupported HTTP method)
before any network activity: the transport trace is empty, so no
connection is ever created. The (-5, Unsupported method) pair of the
claim belongs to an unreachable branch (source lines 150-151). -/
theorem execute_request_unsupported_raises (t : WireCall → Except FMGExc ApiResult)
    (m ep : String) (d : Option (List (String × JSON))) (q : Option (List String))
    (h : pyLower m ∉ supportedMethods) :
    execute_request t m ep d q =
      (.valueError ("Unsupported HTTP method: " ++ pyLower m), []) := by
  simp [execute_request, h]

/-- Witness for the amended C1 at the concrete verb foo. -/
theorem execute_request_unsupported_raises_witness :
    pyLower "foo" ∉ supportedMethods ∧
      execute_request okTransport "foo" "/x" none none =
        (.valueError ("Unsupported HTTP method: " ++ pyLower "foo"), []) :=
  ⟨by decide, execute_request_unsupported_raises okTransport "foo" "/x" none none (by decide)⟩

/-- C2, counterexample: with a results key present but holding an empty
list, the extraction does not use the results entry (the claim would then
give zero rows and the no-data message); the Python or-chain skips the
falsy empty list and the data entry wins. -/
theorem extractRows_falsy_results_cex :
    extractRows (.obj [("results", .arr []), ("data", .arr [.obj [("a", .int 1)]])]) =
      some [.obj [("a", .int 1)]] ∧
    format_table (.obj [("results", .arr []), ("data", .arr [.obj [("a", .int 1)]])]) 6 50 ≠
      .ok "No data to display in table format" := by
  exact ⟨rfl, by decide⟩

/-- C2 (amended): row extraction follows the Python or-chain of the
results, data and items lookups: the first truthy value wins, so a falsy
entry (empty list, empty dict, null, zero, empty string, false) is
skipped even when present; a truthy results list is used even when data
and items are also present; a dict chain value is wrapped as a
one-element list; when the chain yields neither a list nor a dict the
whole mapping becomes the single row; an input that is already a list is
used directly; and an empty extracted row list yields the fixed no-data
message. -/
theorem extractRows_or_chain_spec (kvs : List (String × JSON)) (xs ys : List JSON)
    (v : JSON) (dl : List JSON) (mf mw : Int) :
    (objGet kvs "results" = .arr xs → xs ≠ [] → extractRows (.obj kvs) = some xs) ∧
    (pyTruthy (objGet kvs "results") = false → objGet kvs "data" = .arr ys → ys ≠ [] →
      extractRows (.obj kvs) = some ys) ∧
    (∀ kvs₂, chainValue kvs = .obj kvs₂ → extractRows (.obj kvs) = some [.obj kvs₂]) ∧
    ((∀ zs, chainValue kvs ≠ .arr zs) → (∀ kvs₂, chainValue kvs ≠ .obj kvs₂) →
      extractRows (.obj kvs) = some [.obj kvs]) ∧
    (extractRows (.arr xs) = some xs) ∧
    (extractRows v = some dl → dl = [] →
      format_table v mf mw = .ok "No data to display in table format") := by
  refine ⟨?_, ?_, ?_, ?_, rfl, ?_⟩
  · intro h1 h2
    have ht : pyTruthy (JSON.arr xs) = true := by
      simp [pyTruthy, h2]
    simp [extractRows, chainValue, pyOr, h1, ht]
  · intro h1 h2 h3
    have ht : pyTruthy (JSON.arr ys) = true := by
      simp [pyTruthy, h3]
    simp [extractRows, chainValue, pyOr, h1, h2, ht]
  · intro kvs₂ h
    simp [extractRows, h]
  · intro h1 h2
    rcases hc : chainValue kvs with _ | b | n | s | zs | kvs₂
    · simp [extractRows, hc]
    · simp [extractRows, hc]
    · simp [extractRows, hc]
    · simp [extractRows, hc]
    · exact absurd hc (h1 zs)
    · exact absurd hc (h2 kvs₂)
  · intro h1 h2
    subst h2
    simp [format_table, h1]

/-- Witness for the amended C2: a truthy results list wins, and an empty
row list yields the no-data message. -/
theorem extractRows_or_chain_spec_witness :
    extractRows (.obj [("results", .arr [.null]), ("data", .arr [.int 1])]) = some [.null] ∧
    format_table (.arr []) 6 50 = .ok "No data to display in table format" := by
  constructor
  · exact (extractRows_or_chain_spec [("results", .arr [.null]), ("data", .arr [.int 1])]
      [.null] [] .null [] 6 50).1 rfl (by simp)
  · exact (extractRows_or_chain_spec [] [] [] (.arr []) [] 6 50).2.2.2.2.2 rfl rfl

/-- C3, counterexample: a remote that answers (no exception raised) with
the FortiManager-native negative status -11 has that negative status
passed through by execute_request, so a negative status_code is not
exclusive to client-side causes. -/
theorem execute_request_negative_passthrough_cex :
    execute_request negTransport "get" "/x" none none =
      (.ok (.inl (-11), .null), [⟨.get, "/x", [], []⟩]) ∧
    negTransport ⟨.get, "/x", [], []⟩ = .ok (.inl (-11), .null) :=
  ⟨rfl, rfl⟩

/-- C3 (amended): for every supported verb exactly one transport call is
issued and its outcome is classified totally: a remote answer passes
through unchanged, and each raised exception class maps to exactly one
sentinel row (-1 connection failure or timeout, -2 invalid session,
-3 API error for every other pyFMG exception, -4 unexpected); every
sentinel produced by the except ladder lies in -4..-1, but a negative
result status can also arise from a remote-answered negative status
passed through unchanged. -/
theorem execute_request_classification_spec (t : WireCall → Except FMGExc ApiResult)
    (m ep : String) (d : Option (List (String × JSON))) (q : Option (List String))
    (h : pyLower m ∈ supportedMethods) :
    (∃ call : WireCall,
      execute_request t m ep d q =
        ((match t call with
          | .ok r => ReqResult.ok r
          | .error e => ReqResult.ok (classifyExc e)), [call])) ∧
    (∀ msg, classifyExc (.connectionError msg) = (.inl (-1), errObj "Connection failed" msg)) ∧
    (∀ msg, classifyExc (.connectTimeout msg) = (.inl (-1), errObj "Connection failed" msg)) ∧
    (∀ msg, classifyExc (.validSession msg) = (.inl (-2), errObj "Invalid session" msg)) ∧
    (∀ msg, classifyExc (.valueErr msg) = (.inl (-3), errObj "API error" msg)) ∧
    (∀ msg, classifyExc (.respNotFormed msg) = (.inl (-3), errObj "API error" msg)) ∧
    (∀ msg, classifyExc (.otherBase msg) = (.inl (-3), errObj "API error" msg)) ∧
    (∀ msg, classifyExc (.nonFMG msg) = (.inl (-4), errObj "Unexpected error" msg)) ∧
    (∀ e, ∃ n : Int, (classifyExc e).1 = .inl n ∧ -4 ≤ n ∧ n ≤ -1) := by
  refine ⟨?_, fun msg => rfl, fun msg => rfl, fun msg => rfl, fun msg => rfl,
    fun msg => rfl, fun msg => rfl, fun msg => rfl, ?_⟩
  · obtain ⟨c, _, _, hc⟩ := execute_request_call t m ep d q h
    exact ⟨c, hc⟩
  · intro e
    cases e <;> exact ⟨_, rfl, by decide, by decide⟩

/-- Witness for the amended C3: the get verb is supported and a
successful transport answer passes through unchanged. -/
theorem execute_request_classification_spec_witness :
    pyLower "get" ∈ supportedMethods ∧
      (execute_request okTransport "get" "/x" none none).1 = .ok (.inl 0, .null) := by
  refine ⟨by decide, ?_⟩
  obtain ⟨hcall, -⟩ :=
    execute_request_classification_spec okTransport "get" "/x" none none (by decide)
  obtain ⟨c, hc⟩ := hcall
  rw [hc]
  rfl

/-- C4, counterexample: the name-join branch is chosen by inspecting only
the first list element, so a list mixing a name-bearing dict with a dict
lacking name does not flatten to the comma-joined str forms the claim
states for lists that are not uniformly name-bearing; it flattens to the
joined name lookups, with the empty string for the missing name. -/
theorem flatten_value_first_element_cex :
    _flatten_value (.arr [.obj [("name", .str "a")], .obj [("b", .int 2)]]) = .ok "a, " ∧
    joinComma (([JSON.obj [("name", .str "a")], .obj [("b", .int 2)]]).map pyStr) ≠ "a, " :=
  ⟨rfl, by decide⟩

/-- C4 (amended): _flatten_value maps null and the empty list to a dash;
a non-empty list of dicts that each carry a name to the comma-joined
names; more generally, when the first element is a name-bearing dict,
every element contributes its name lookup (an absent name contributes the
empty string, and a non-dict later element raises AttributeError); a
non-empty list whose first element is not a name-bearing dict to the
comma-joined str forms of its elements; a name-bearing dict to its name
entry's str form; a single-entry dict to its value's str form; a
multi-entry dict without name to its full str form; and every scalar to
its direct str form. -/
theorem flatten_value_spec (kvs : List (String × JSON)) (v : JSON) (vs : List JSON)
    (s : String) (b : Bool) (n : Int) (k : String) (w : JSON) :
    (_flatten_value .null = .ok "-") ∧
    (_flatten_value (.arr []) = .ok "-") ∧
    ((∀ x ∈ v :: vs, ∃ kvs₀, x = JSON.obj kvs₀ ∧ hasKey kvs₀ "name" = true) →
      _flatten_value (.arr (v :: vs)) = .ok (joinComma ((v :: vs).map objNameText))) ∧
    (hasKey kvs "name" = true → (∀ x ∈ vs, isObjB x = true) →
      _flatten_value (.arr (JSON.obj kvs :: vs)) =
        .ok (joinComma ((JSON.obj kvs :: vs).map objNameText))) ∧
    (hasKey kvs "name" = true → (∃ x ∈ vs, isObjB x = false) →
      _flatten_value (.arr (JSON.obj kvs :: vs)) = .error .attributeError) ∧
    (isObjB v = false → _flatten_value (.arr (v :: vs)) = .ok (joinComma ((v :: vs).map pyStr))) ∧
    (hasKey kvs "name" = false →
      _flatten_value (.arr (JSON.obj kvs :: vs)) = .ok (joinComma ((JSON.obj kvs :: vs).map pyStr))) ∧
    (hasKey kvs "name" = true → _flatten_value (.obj kvs) = .ok (pyStr (objGet kvs "name"))) ∧
    (_flatten_value (.obj [(k, w)]) = .ok (pyStr w)) ∧
    (hasKey kvs "name" = false → kvs.length ≠ 1 → _flatten_value (.obj kvs) = .ok (pyStr (.obj kvs))) ∧
    (_flatten_value (.bool b) = .ok (pyStr (.bool b))) ∧
    (_flatten_value (.int n) = .ok (pyStr (.int n))) ∧
    (_flatten_value (.str s) = .ok s) := by
  refine ⟨rfl, rfl, ?_, ?_, ?_, ?_, ?_, ?_, ?_, ?_, rfl, rfl, rfl⟩
  · intro hall
    obtain ⟨kvs₀, rfl, hname⟩ := hall v (List.mem_cons_self v vs)
    have hobjs : ∀ x ∈ JSON.obj kvs₀ :: vs, isObjB x = true := by
      intro x hx
      obtain ⟨kvs₁, rfl, -⟩ := hall x hx
      rfl
    simp [_flatten_value, hname, mapME_nameStr_ok _ hobjs]
  · intro hname hobjs
    have hall : ∀ x ∈ JSON.obj kvs :: vs, isObjB x = true := by
      intro x hx
      rcases List.mem_cons.mp hx with rfl | hx'
      · rfl
      · exact hobjs x hx'
    simp [_flatten_value, hname, mapME_nameStr_ok _ hall]
  · intro hname hbad
    obtain ⟨x, hx, hxf⟩ := hbad
    have herr := mapME_nameStr_err (JSON.obj kvs :: vs) ⟨x, List.mem_cons_of_mem _ hx, hxf⟩
    simp [_flatten_value, hname, herr]
  · intro hv
    cases v with
    | null => rfl
    | bool b => rfl
    | int n => rfl
    | str s => rfl
    | arr ys => rfl
    | obj kvs₀ => simp [isObjB] at hv
  · intro hname
    simp [_flatten_value, hname]
  · intro hname
    simp [_flatten_value, hname]
  · by_cases hk : k = "name"
    · subst hk
      simp [_flatten_value, hasKey, alook, objGet]
    · simp [_flatten_value, hasKey, alook, hk, objGet]
  · intro hname hlen
    simp [_flatten_value, hname, hlen]

/-- Witness for the amended C4 at the scenario values: a name-bearing
dict flattens to its name, a list of name-bearing dicts to the joined
names, and null to a dash. -/
theorem flatten_value_spec_witness :
    _flatten_value (.obj [("name", .str "obj1")]) = .ok "obj1" ∧
    _flatten_value (.arr [.obj [("name", .str "a")], .obj [("name", .str "b")]]) = .ok "a, b" ∧
    _flatten_value .null = .ok "-" := by
  refine ⟨?_, ?_, (flatten_value_spec [] .null [] "" false 0 "x" .null).1⟩
  · have h := (flatten_value_spec [("name", .str "obj1")] .null [] "" false 0 "x"
      .null).2.2.2.2.2.2.2.1
    exact (h rfl).trans rfl
  · have h := (flatten_value_spec [] (.obj [("name", .str "a")])
      [.obj [("name", .str "b")]] "" false 0 "x" .null).2.2.1
    refine (h ?_).trans rfl
    intro x hx
    rcases List.mem_cons.mp hx with rfl | hx'
    · exact ⟨[("name", .str "a")], rfl, rfl⟩
    · rcases List.mem_cons.mp hx' with rfl | hx''
      · exact ⟨[("name", .str "b")], rfl, rfl⟩
      · simp at hx''

/-- C5, counterexample: calling format_table itself with max_fields 0 does
not treat the field count as unlimited; the slice keeps zero keys and the
no-suitable-fields message is returned even though the single row has a
key. (The unlimited reading only arises in main, which replaces a zero
flag by 999 before calling.) -/
theorem format_table_zero_max_fields_cex :
    format_table (.obj [("a", .int 1)]) 0 50 =
      .ok "No suitable fields found for table display" := rfl

/-- C5 (amended): the counted pairs equal the spec-side description
(every key of the first ten dict rows, in first-seen order, with its
occurrence count); the ranked list common_fields is ordered by weakly
decreasing count, is a permutation of the counted pairs, and within one
count keeps exactly the first-seen order (stable tie-break); the chosen
columns are the first max_fields ranked keys when max_fields is
nonnegative; max_fields 0 selects no columns, so format_table answers the
no-suitable-fields message (the CLI layer replaces a zero flag by 999,
unlimited only up to 999 columns); and when the sampled rows contain no
dict, no columns are found. -/
theorem format_table_column_inference_spec (v : JSON) (dl : List JSON) (mf mw : Int) :
    (field_counts dl = specColumnPairs dl) ∧
    (List.Chain' (fun a b : String × Nat => b.2 ≤ a.2) (common_fields dl)) ∧
    (∀ c : Nat, (common_fields dl).filter (fun q => decide (q.2 = c)) =
      (field_counts dl).filter (fun q => decide (q.2 = c))) ∧
    (List.Perm (common_fields dl) (field_counts dl)) ∧
    (0 ≤ mf → tableFields mf dl = ((common_fields dl).map Prod.fst).take mf.toNat) ∧
    (tableFields 0 dl = []) ∧
    ((∀ item ∈ dl.take 10, isObjB item = false) → tableFields mf dl = []) ∧
    (extractRows v = some dl → dl ≠ [] → tableFields mf dl = [] →
      format_table v mf mw = .ok "No suitable fields found for table display") ∧
    (cliMaxFields 0 = 999) := by
  refine ⟨field_counts_eq_spec dl, sortDesc_chain _, fun c => sortDesc_filter _ c,
    sortDesc_perm _, ?_, ?_, ?_, ?_, rfl⟩
  · intro hmf
    simp [tableFields, pyTakeList, hmf, List.map_take]
  · simp [tableFields, pyTakeList]
  · intro hno
    have hrk : ∀ item ∈ dl.take 10, rowKeys item = [] := by
      intro item h
      have := hno item h
      cases item <;> simp_all [isObjB, rowKeys]
    have hsk : sampleKeys dl = [] := by
      simp only [sampleKeys]
      exact List.flatMap_eq_nil_iff.mpr hrk
    have hfc : field_counts dl = [] := by
      rw [field_counts_flat, hsk]
      rfl
    simp [tableFields, common_fields, hfc, sortDesc, pyTakeList]
  · intro h1 h2 h3
    simp [format_table, h1, h2, h3]

/-- Witness for the amended C5: max_fields 0 yields the no-suitable-fields
message on a one-key row, and a sample without dict rows yields no
columns. -/
theorem format_table_column_inference_spec_witness :
    format_table (.obj [("x", .null)]) 0 50 =
      .ok "No suitable fields found for table display" ∧
    tableFields 6 [.int 5] = [] := by
  constructor
  · exact (format_table_column_inference_spec (.obj [("x", .null)])
      [.obj [("x", .null)]] 0 50).2.2.2.2.2.2.2.1 rfl (by simp) rfl
  · exact (format_table_column_inference_spec .null [.int 5] 6 50).2.2.2.2.2.2.1 (by decide)

/-- C6, counterexample: with maxWidth 1 and the two-character cell ab, the
rendered cell is the full ellipsis of length 3, not a cell of length
exactly 1: the slice bound 1 - 3 is a Python negative index. -/
theorem truncate_cell_small_width_cex :
    truncate_cell 1 "ab" = "..." ∧ (truncate_cell 1 "ab").length ≠ 1 :=
  ⟨rfl, by decide⟩

/-- C6 (amended): when maxWidth is at least 3, a cell longer than
maxWidth is cut to its first maxWidth - 3 characters plus the
three-character ellipsis, giving length exactly maxWidth; cells of length
at most maxWidth, and all cells when maxWidth is 0, are unchanged; but
for maxWidth 1 or 2 the slice bound maxWidth - 3 is negative, so Python
keeps all but the last 3 - maxWidth characters before appending the
ellipsis, and the rendered length exceeds maxWidth. -/
theorem truncate_cell_spec (mw : Int) (s : String) :
    (mw = 0 → truncate_cell mw s = s) ∧
    ((s.length : Int) ≤ mw → truncate_cell mw s = s) ∧
    (3 ≤ mw → mw < (s.length : Int) →
      truncate_cell mw s = String.mk (s.data.take (mw.toNat - 3)) ++ "..." ∧
      (truncate_cell mw s).length = mw.toNat) ∧
    ((mw = 1 ∨ mw = 2) → mw < (s.length : Int) →
      truncate_cell mw s = String.mk (s.data.take (s.length - (3 - mw).toNat)) ++ "...") := by
  refine ⟨?_, truncate_cell_short mw s, truncate_cell_long mw s, truncate_cell_tiny mw s⟩
  intro h
  rw [h]
  exact truncate_cell_zero s

/-- Witness for the amended C6 at concrete widths and cells. -/
theorem truncate_cell_spec_witness :
    truncate_cell 0 "abc" = "abc" ∧ truncate_cell 50 "abc" = "abc" ∧
    truncate_cell 5 "abcdefgh" = "ab..." ∧ (truncate_cell 5 "abcdefgh").length = 5 ∧
    truncate_cell 1 "ab" = "..." := by
  refine ⟨(truncate_cell_spec 0 "abc").1 rfl, (truncate_cell_spec 50 "abc").2.1 (by decide),
    ?_, ?_, ?_⟩
  · exact (((truncate_cell_spec 5 "abcdefgh").2.2.1 (by decide) (by decide)).1).trans rfl
  · exact ((truncate_cell_spec 5 "abcdefgh").2.2.1 (by decide) (by decide)).2
  · exact ((truncate_cell_spec 1 "ab").2.2.2 (Or.inl rfl) (by decide)).trans rfl

/-- C7 (confirmed): for every supported verb the issued wire call carries
the normalized endpoint, which always begins with a slash; an endpoint
already starting with a slash passes through unchanged, otherwise exactly
one slash is prefixed; and the normalization is idempotent. -/
theorem execute_request_path_normalization (t : WireCall → Except FMGExc ApiResult)
    (m ep : String) (d : Option (List (String × JSON))) (q : Option (List String))
    (h : pyLower m ∈ supportedMethods) :
    (∀ c ∈ (execute_request t m ep d q).2, c.endpoint = normalizeEndpoint ep) ∧
    pyStartswith (normalizeEndpoint ep) "/" = true ∧
    (pyStartswith ep "/" = true → normalizeEndpoint ep = ep) ∧
    (pyStartswith ep "/" = false → normalizeEndpoint ep = "/" ++ ep) ∧
    normalizeEndpoint (normalizeEndpoint ep) = normalizeEndpoint ep := by
  refine ⟨?_, normalizeEndpoint_starts ep, fun hs => by simp [normalizeEndpoint, hs],
    fun hs => by simp [normalizeEndpoint, hs], normalizeEndpoint_idem ep⟩
  obtain ⟨c, hce, _, hc⟩ := execute_request_call t m ep d q h
  intro c' hc'
  rw [hc] at hc'
  simp only [List.mem_singleton] at hc'
  rw [hc', hce]

/-- Witness for C7 at the get verb and an endpoint without a leading
slash. -/
theorem execute_request_path_normalization_witness :
    (∀ c ∈ (execute_request okTransport "get" "x" none none).2,
      c.endpoint = normalizeEndpoint "x") ∧
    pyStartswith (normalizeEndpoint "x") "/" = true := by
  obtain ⟨h1, h2, -⟩ :=
    execute_request_path_normalization okTransport "get" "x" none none (by decide)
  exact ⟨h1, h2⟩

/-- C8 (confirmed): for every transport, endpoint, body and query list,
the verbs set and update make execute_request issue the identical wire
call and return the identical result: both dispatch to the update wire
method. -/
theorem execute_request_set_update_alias (t : WireCall → Except FMGExc ApiResult)
    (ep : String) (d : Option (List (String × JSON))) (q : Option (List String)) :
    execute_request t "set" ep d q = execute_request t "update" ep d q := rfl

/-- C9 (confirmed): the process exit code is 1 for configuration and
validation failures, 130 on user interrupt, and otherwise determined by
the classified status: 1 for every negative integer status and for a
string status that does not lower to success or ok, 2 for an integer
status of at least 400, and 0 otherwise (success). -/
theorem mainExitCode_spec :
    mainExitCode .configLoadError = 1 ∧ mainExitCode .missingHost = 1 ∧
    mainExitCode .missingSecret = 1 ∧ mainExitCode .badDataJson = 1 ∧
    mainExitCode .valueErrorRaised = 1 ∧ mainExitCode .interrupted = 130 ∧
    (∀ n : Int, n < 0 → mainExitCode (.completed (.inl n)) = 1) ∧
    (∀ n : Int, 400 ≤ n → mainExitCode (.completed (.inl n)) = 2) ∧
    (∀ n : Int, 0 ≤ n → n < 400 → mainExitCode (.completed (.inl n)) = 0) ∧
    (∀ s : String, (pyLower s = "success" ∨ pyLower s = "ok") →
      mainExitCode (.completed (.inr s)) = 0) ∧
    (∀ s : String, pyLower s ≠ "success" → pyLower s ≠ "ok" →
      mainExitCode (.completed (.inr s)) = 1) := by
  refine ⟨rfl, rfl, rfl, rfl, rfl, rfl, ?_, ?_, ?_, ?_, ?_⟩
  · intro n h
    simp [mainExitCode, statusExitCode, h]
  · intro n h
    have h0 : ¬n < 0 := by omega
    simp [mainExitCode, statusExitCode, h0, h]
  · intro n h1 h2
    have h0 : ¬n < 0 := by omega
    have h4 : ¬400 ≤ n := by omega
    simp [mainExitCode, statusExitCode, h0, h4]
  · intro s h
    simp [mainExitCode, statusExitCode, h]
  · intro s h1 h2
    simp [mainExitCode, statusExitCode, h1, h2]

/-- Witness for C9 at concrete statuses of each class. -/
theorem mainExitCode_spec_witness :
    mainExitCode (.completed (.inl (-1))) = 1 ∧
    mainExitCode (.completed (.inl 404)) = 2 ∧
    mainExitCode (.completed (.inl 0)) = 0 ∧
    mainExitCode (.completed (.inr "OK")) = 0 ∧
    mainExitCode (.completed (.inr "failed")) = 1 :=
  ⟨mainExitCode_spec.2.2.2.2.2.2.1 (-1) (by decide),
    mainExitCode_spec.2.2.2.2.2.2.2.1 404 (by decide),
    mainExitCode_spec.2.2.2.2.2.2.2.2.1 0 (by decide) (by decide),
    mainExitCode_spec.2.2.2.2.2.2.2.2.2.1 "OK" (Or.inr rfl),
    mainExitCode_spec.2.2.2.2.2.2.2.2.2.2 "failed" (by decide) (by decide)⟩

/-- C10, counterexample: format_table raises (AttributeError) on a list
mixing a dict row with a non-dict row, and _flatten_value raises on the
bad name-join shape, so neither is total over all JSON values. -/
theorem format_table_mixed_rows_cex :
    format_table (.arr [.obj [("a", .int 1)], .int 5]) 6 50 = .error .attributeError ∧
    _flatten_value (.arr [.obj [("name", .str "a")], .int 5]) = .error .attributeError :=
  ⟨rfl, rfl⟩

/-- C10 (amended): _flatten_value returns a string on every JSON value
except the bad name-join shape (a list headed by a name-bearing dict with
a non-dict later element), on which it raises AttributeError; format_table
returns a string whenever the extraction yields no rows at all (scalar
input), and whenever every extracted row is a dict whose looked-up cell
values avoid that shape; and a dict row missing an inferred column renders
the cell from the dash placeholder. -/
theorem format_table_totality_spec (v : JSON) (dl : List JSON) (mf mw : Int) :
    (∀ u : JSON, exceptOk (_flatten_value u) = !badNameShape u) ∧
    (extractRows v = none → exceptOk (format_table v mf mw) = true) ∧
    (extractRows v = some dl → (∀ item ∈ dl, isObjB item = true) →
      (∀ kvs, JSON.obj kvs ∈ dl → ∀ k, badNameShape (cellValue kvs k) = false) →
      exceptOk (format_table v mf mw) = true) ∧
    (∀ kvs k, alook k kvs = none →
      render_cell mw (.obj kvs) k = .ok (truncate_cell mw "-")) := by
  refine ⟨flatten_ok_char, ?_, ?_, ?_⟩
  · intro hv
    simp [format_table, hv, exceptOk]
  · intro hv hobj hcells
    have hrows : exceptOk (mapME (render_row mw (tableFields mf dl)) dl) = true := by
      apply mapME_ok_of
      intro item hitem
      obtain ⟨kvs, rfl⟩ := (isObjB_iff item).mp (hobj item hitem)
      exact render_row_ok mw _ kvs (fun k _ => hcells kvs hitem k)
    obtain ⟨rows, hrows'⟩ := (exceptOk_iff _).mp hrows
    by_cases hemp : dl.isEmpty
    · simp [format_table, hv, hemp, exceptOk]
    · by_cases hf : (tableFields mf dl).isEmpty
      · simp [format_table, hv, hemp, hf, exceptOk]
      · simp [format_table, hv, hemp, hf, hrows', exceptOk]
  · intro kvs k h
    simp [render_cell, pyGetMethod, h, _flatten_value, pyStr]

/-- Witness for the amended C10: a well-shaped one-row table renders
without raising, and a scalar input yields the descriptive message
without raising. -/
theorem format_table_totality_spec_witness :
    exceptOk (format_table (.arr [.obj [("a", .int 1)]]) 6 50) = true ∧
    exceptOk (format_table (.int 7) 6 50) = true := by
  constructor
  · refine (format_table_totality_spec (.arr [.obj [("a", .int 1)]])
      [.obj [("a", .int 1)]] 6 50).2.2.1 rfl ?_ ?_
    · intro item h
      simp only [List.mem_singleton] at h
      subst h
      rfl
    · intro kvs hm k
      simp only [List.mem_singleton, JSON.obj.injEq] at hm
      subst hm
      by_cases hk : "a" = k
      · simp [cellValue, alook, hk, badNameShape]
      · simp [cellValue, alook, hk, badNameShape]
  · exact (format_table_totality_spec (.int 7) [] 6 50).2.1 rfl
